import Mathlib

/-!
Shallow embedding of the `easytiming` crate (src/lib.rs and src/future.rs).

Modelling conventions:
- A monotonic `Instant` is a natural number of nanoseconds; subtracting two
  instants (`Instant::now() - self.start`) is truncated subtraction on `Nat`.
- A `Duration` is its total length in nanoseconds; `Duration::subsec_nanos`
  is the remainder modulo 10^9 (std `Duration` stores seconds plus a
  sub-second nanosecond field below 10^9).
- The writer sink (`W: Write`) is modelled as a line buffer together with a
  flag saying whether writes to it fail; `write!` returns `Except Unit` in
  place of `io::Result<()>`.
- The `Log`/`Slog` variants of `Sink` are behind cargo features that are off
  by default and are not mentioned by any claim, so the embedded `Sink` has
  the two always-present variants.
- Side effects are made explicit: functions that report return, next to the
  updated timer, the list of rendered report lines handed to the sink.
-/

namespace Easytiming

/-- Nanoseconds in one second, the modulus of `Duration::subsec_nanos`. -/
def nanosPerSec : Nat := 1000000000

/-- `Duration::subsec_nanos` on a duration given in total nanoseconds. -/
def subsecNanos (d : Nat) : Nat := d % nanosPerSec

/-- Model of a caller-supplied writable destination (`W: Write`): the lines
written so far, and whether writes to it fail. -/
structure Writer where
  buf : List String
  failing : Bool

/-- Model of `write!(out, ...)`: a failing writer returns `Err`, otherwise
the rendered text is appended to the buffer. -/
def Writer.write (w : Writer) (s : String) : Except Unit Writer :=
  if w.failing then Except.error () else Except.ok { w with buf := w.buf ++ [s] }

/-- The `Sink` enum of src/lib.rs (default feature set: `Println`, `Writer`). -/
inductive Sink where
  | println : Sink
  | writer : Writer → Sink

/-- The `Timing` struct of src/lib.rs. -/
structure Timing where
  start : Nat
  lapse : Nat
  name : String
  quiet : Bool
  sink : Sink

/-- `impl Default for Timing`: start is the current instant, lapse and name
default, not quiet, console sink. -/
def Timing.default (now : Nat) : Timing :=
  { start := now, lapse := 0, name := "", quiet := false, sink := Sink.println }

/-- `Timing::new(name)`. -/
def Timing.new (name : String) (now : Nat) : Timing :=
  { Timing.default now with name := name }

/-- `Timing::quiet()` (named `quietTimer` here because the Lean field
projection `Timing.quiet` already takes the source name). -/
def Timing.quietTimer (now : Nat) : Timing :=
  { Timing.default now with quiet := true }

/-- `Timing::with_writer(name, writer)`. -/
def Timing.with_writer (name : String) (writer : Writer) (now : Nat) : Timing :=
  { Timing.default now with name := name, sink := Sink.writer writer }

/-- `Timing::elapsed`: `Instant::now() - self.start`. -/
def Timing.elapsed (t : Timing) (now : Nat) : Nat := now - t.start

/-- The rendered report text: `"<name>" was running for <N> ns` with
`N = lapse.subsec_nanos()`. -/
def reportLine (name : String) (lapse : Nat) : String :=
  "\"" ++ name ++ "\" was running for " ++ toString (subsecNanos lapse) ++ " ns"

/-- `Timing::report`: renders the line and dispatches on the sink. For
`Println` the line goes to the console; for `Writer` the result of `write!`
is discarded with `unwrap_or_default()`, so a failed write leaves the
writer's buffer as the failing write left it and is otherwise ignored.
The returned list holds the line handed to the sink. -/
def Timing.report (t : Timing) : Timing × List String :=
  let line := reportLine t.name t.lapse
  match t.sink with
  | Sink.println => (t, [line])
  | Sink.writer w =>
      match w.write line with
      | Except.ok w2 => ({ t with sink := Sink.writer w2 }, [line])
      | Except.error _ => (t, [line])

/-- `Timing::finish`: store `lapse = elapsed()`, return early when quiet,
otherwise report. -/
def Timing.finish (t : Timing) (now : Nat) : Timing × List String :=
  let t2 := { t with lapse := t.elapsed now }
  if t2.quiet then (t2, [])
  else t2.report

/-- The `Display` impl: `Timing(<name>) is running for <duration>`, computed
from `elapsed()` at the instant of the call. -/
def Timing.display (t : Timing) (now : Nat) : String :=
  "Timing(" ++ t.name ++ ") is running for " ++ toString (t.elapsed now)

/-- The borrow-only observations available on a live timer: `elapsed`,
`name`, and the `Display` rendering. None of them takes `&mut self`. -/
inductive Query where
  | elapsedQ : Nat → Query
  | nameQ : Query
  | displayQ : Nat → Query

/-- Running one observation: the timer is unchanged, the observed value is
returned, and nothing is handed to the sink. -/
def Timing.runQuery (t : Timing) (q : Query) : Timing × String × List String :=
  match q with
  | Query.elapsedQ now => (t, toString (t.elapsed now), [])
  | Query.nameQ => (t, t.name, [])
  | Query.displayQ now => (t, t.display now, [])

/-- Running a sequence of observations, collecting all sink output. -/
def Timing.runQueries (t : Timing) (qs : List Query) : Timing × List String :=
  match qs with
  | [] => (t, [])
  | q :: rest =>
      let (t2, _, out) := t.runQuery q
      let (t3, outs) := t2.runQueries rest
      (t3, out ++ outs)

/-- One whole lifetime of a scoped timer: any sequence of observations while
it is live, then the guaranteed `Drop`, which calls `finish` exactly once
(Rust runs the destructor once on every exit path). -/
def Timing.lifetime (t : Timing) (qs : List Query) (dropNow : Nat) : Timing × List String :=
  let (t2, outs) := t.runQueries qs
  let (t3, out2) := t2.finish dropNow
  (t3, outs ++ out2)

/-- `futures::Async` (futures 0.1). -/
inductive Async (α : Type) where
  | ready : α → Async α
  | notReady : Async α

/-- An inner future `A: Future` as a state machine: `poll` steps the state
and yields `Poll<Item, Error> = Result<Async<Item>, Error>`. -/
structure FutureM (σ α ε : Type) where
  step : σ → σ × Except ε (Async α)

namespace future

/-- The `Timing` struct of src/future.rs. -/
structure Timing (σ : Type) where
  inner : σ
  start : Nat
  completed : Option Nat
  lapse : Nat
  name : String
  quiet : Bool
  sink : Sink

/-- `future::Timing::new(inner, name)`. -/
def Timing.new {σ : Type} (inner : σ) (name : String) (now : Nat) : Timing σ :=
  { inner := inner, start := now, completed := none, lapse := 0,
    name := name, quiet := false, sink := Sink.println }

/-- `future::Timing::with_writer(inner, name, writer)`. -/
def Timing.with_writer {σ : Type} (inner : σ) (name : String) (writer : Writer)
    (now : Nat) : Timing σ :=
  { inner := inner, start := now, completed := none, lapse := 0,
    name := name, quiet := false, sink := Sink.writer writer }

/-- `future::Timing::elapsed`. -/
def Timing.elapsed {σ : Type} (t : Timing σ) (now : Nat) : Nat := now - t.start

/-- `future::Timing::report`: renders the same line, but the `Writer` arm
calls `.unwrap()` on the `write!` result, so a failed write panics
(modelled as `Except.error ()`). -/
def Timing.report {σ : Type} (t : Timing σ) : Except Unit (Timing σ × List String) :=
  let output := reportLine t.name t.lapse
  match t.sink with
  | Sink.println => Except.ok (t, [output])
  | Sink.writer w =>
      match w.write output with
      | Except.ok w2 => Except.ok ({ t with sink := Sink.writer w2 }, [output])
      | Except.error _ => Except.error ()

/-- `future::Timing::finish`: store `lapse = elapsed()`, return when quiet,
otherwise report. -/
def Timing.finish {σ : Type} (t : Timing σ) (now : Nat) : Except Unit (Timing σ × List String) :=
  let t2 := { t with lapse := t.elapsed now }
  if t2.quiet then Except.ok (t2, [])
  else t2.report

/-- `impl Future for Timing::poll`: poll the inner future; when it reports
`Ready` or `Err`, set `completed = Some(now)`; return the inner result. -/
def Timing.poll {σ α ε : Type} (m : FutureM σ α ε) (t : Timing σ) (now : Nat) :
    Timing σ × Except ε (Async α) :=
  let (s2, poll) := m.step t.inner
  let t2 := { t with inner := s2 }
  match poll with
  | Except.ok (Async.ready _) => ({ t2 with completed := some now }, poll)
  | Except.error _ => ({ t2 with completed := some now }, poll)
  | Except.ok Async.notReady => (t2, poll)

/-- Driving the bare inner future for one step per listed instant,
collecting the poll results. -/
def driveInner {σ α ε : Type} (m : FutureM σ α ε) (s : σ) (nows : List Nat) :
    σ × List (Except ε (Async α)) :=
  match nows with
  | [] => (s, [])
  | _ :: rest =>
      ((driveInner m (m.step s).1 rest).1,
       (m.step s).2 :: (driveInner m (m.step s).1 rest).2)

/-- Driving the wrapper for one poll per listed instant, collecting the
results the caller observes. -/
def drive {σ α ε : Type} (m : FutureM σ α ε) (t : Timing σ) (nows : List Nat) :
    Timing σ × List (Except ε (Async α)) :=
  match nows with
  | [] => (t, [])
  | now :: rest =>
      ((drive m (Timing.poll m t now).1 rest).1,
       (Timing.poll m t now).2 :: (drive m (Timing.poll m t now).1 rest).2)

end future

/-- Concrete settling inner future: every poll reports `Ready(0)`. -/
def readyM : FutureM Unit Nat Unit :=
  { step := fun s => (s, Except.ok (Async.ready 0)) }

/-- Concrete failing writer: every write to it returns an error. -/
def failW : Writer := { buf := [], failing := true }

/-! ### Helper lemmas -/

/-- Characterisation of one poll of the wrapper: the inner state advances by
one inner step, `completed` becomes `some now` exactly when that step settles,
and the inner step's result is returned. -/
theorem poll_eq {σ α ε : Type} (m : FutureM σ α ε) (t : future.Timing σ) (now : Nat) :
    future.Timing.poll m t now =
      ({ t with inner := (m.step t.inner).1,
                completed :=
                  match (m.step t.inner).2 with
                  | Except.ok Async.notReady => t.completed
                  | _ => some now },
        (m.step t.inner).2) := by
  rcases h : m.step t.inner with ⟨s2, r⟩
  simp only [future.Timing.poll, h]
  rcases r with e | a
  · rfl
  · cases a <;> rfl

/-- The borrow-only observations leave the timer unchanged and write nothing. -/
theorem runQueries_id (qs : List Query) : ∀ t : Timing, t.runQueries qs = (t, []) := by
  induction qs with
  | nil => intro t; rfl
  | cons q rest ih => intro t; cases q <;> simp [Timing.runQueries, Timing.runQuery, ih]

/-- `report` hands exactly one rendered line to the sink. -/
theorem report_out_length (t : Timing) : t.report.2.length = 1 := by
  obtain ⟨st, la, na, qu, si⟩ := t
  rcases si with _ | w
  · rfl
  · obtain ⟨buf, fl⟩ := w
    cases fl <;> rfl

/-! ### Claim theorems -/

/-- Claim C1: finalizing a non-quiet timer with a (non-failing) writer sink
appends exactly one line to the writer, of the form
`"<name>" was running for <N> ns`, where `N` is the sub-second nanosecond
remainder of the recorded lapse, so `0 <= N <= 999999999`. -/
theorem c1_writer_line (t : Timing) (w : Writer) (now : Nat)
    (hq : t.quiet = false) (hs : t.sink = Sink.writer w) (hf : w.failing = false) :
    (t.finish now).1.sink =
      Sink.writer { buf := w.buf ++ [reportLine t.name (t.elapsed now)], failing := false } ∧
    reportLine t.name (t.elapsed now) =
      "\"" ++ t.name ++ "\" was running for " ++ toString (subsecNanos (t.elapsed now)) ++ " ns" ∧
    (t.finish now).1.lapse = t.elapsed now ∧
    subsecNanos (t.elapsed now) ≤ 999999999 := by
  obtain ⟨st, la, na, qu, si⟩ := t
  obtain ⟨buf, fl⟩ := w
  dsimp at hq hs hf ⊢
  subst hq hf hs
  refine ⟨rfl, rfl, rfl, ?_⟩
  unfold subsecNanos nanosPerSec
  omega

/-- Witness for C1 at a concrete timer and drop instant. -/
theorem c1_writer_line_witness :
    ((Timing.with_writer "t" { buf := [], failing := false } 0).finish 5).1.sink =
      Sink.writer { buf := [reportLine "t" 5], failing := false } ∧
    reportLine "t" 5 = "\"t\" was running for " ++ toString (subsecNanos 5) ++ " ns" ∧
    ((Timing.with_writer "t" { buf := [], failing := false } 0).finish 5).1.lapse = 5 ∧
    subsecNanos 5 ≤ 999999999 :=
  c1_writer_line (Timing.with_writer "t" { buf := [], failing := false } 0)
    { buf := [], failing := false } 5 rfl rfl rfl

/-- Claim C6: finalizing a quiet timer emits nothing and leaves the sink
untouched, but the elapsed duration is still computed and stored in `lapse`. -/
theorem c6_quiet_finish (t : Timing) (now : Nat) (hq : t.quiet = true) :
    t.finish now = ({ t with lapse := t.elapsed now }, []) := by
  obtain ⟨st, la, na, qu, si⟩ := t
  dsimp at hq
  subst hq
  rfl

/-- Witness for C6 at a concrete quiet timer. -/
theorem c6_quiet_finish_witness :
    (Timing.quietTimer 0).finish 5 =
      ({ start := 0, lapse := 5, name := "", quiet := true, sink := Sink.println }, []) :=
  c6_quiet_finish (Timing.quietTimer 0) 5 rfl

/-- Claim C7: over a whole lifetime (any sequence of observations, then the
single guaranteed `Drop`), everything handed to the sink comes from the one
`finish` call, and the number of report lines is one for a non-quiet timer
and zero for a quiet one. -/
theorem c7_report_once (t : Timing) (qs : List Query) (dropNow : Nat) :
    (t.lifetime qs dropNow).2 = (t.finish dropNow).2 ∧
    (t.lifetime qs dropNow).2.length = (if t.quiet then 0 else 1) := by
  have h := runQueries_id qs t
  refine ⟨by simp [Timing.lifetime, h], ?_⟩
  simp only [Timing.lifetime, h]
  obtain ⟨st, la, na, qu, si⟩ := t
  cases qu
  · simpa [Timing.finish] using report_out_length ⟨st, dropNow - st, na, false, si⟩
  · rfl

/-- Claim C8: `Timing::new(name)` has exactly the given name, the console
(`Println`) sink, and `quiet = false`. -/
theorem c8_new_fields (name : String) (now : Nat) :
    (Timing.new name now).name = name ∧
    (Timing.new name now).sink = Sink.println ∧
    (Timing.new name now).quiet = false :=
  ⟨rfl, rfl, rfl⟩

/-- Claim C9: `Timing::quiet()` has the empty name and `quiet = true`, so its
finalization emits nothing. -/
theorem c9_quiet_ctor (now dropNow : Nat) :
    (Timing.quietTimer now).name = "" ∧
    (Timing.quietTimer now).quiet = true ∧
    ((Timing.quietTimer now).finish dropNow).2 = [] :=
  ⟨rfl, rfl, rfl⟩

/-- Claim C2 (code bug evidence): with a failing writer sink, finalization of
the scoped variant swallows the write error (`unwrap_or_default`) — it
completes and returns with the sink untouched — while finalization of the
future-wrapping variant calls `.unwrap()` on the same failed write and
panics, modelled as `Except.error ()`. -/
theorem c2_future_unwrap_panics :
    ((Timing.with_writer "t" failW 0).finish 5).1.sink = Sink.writer failW ∧
    ((Timing.with_writer "t" failW 0).finish 5).1.lapse = 5 ∧
    future.Timing.finish (future.Timing.with_writer () "t" failW 0) 5 = Except.error () :=
  ⟨rfl, rfl, rfl⟩

/-- Claim C3: driving the wrapper is observationally the inner future —
for every inner machine, every starting wrapper state, and every sequence
of drive steps, the wrapper returns exactly the inner poll results, and the
wrapped inner state evolves exactly as the bare inner future does. -/
theorem c3_poll_delegates {σ α ε : Type} (m : FutureM σ α ε) (t : future.Timing σ)
    (nows : List Nat) :
    (future.drive m t nows).2 = (future.driveInner m t.inner nows).2 ∧
    (future.drive m t nows).1.inner = (future.driveInner m t.inner nows).1 := by
  induction nows generalizing t with
  | nil => exact ⟨rfl, rfl⟩
  | cons now rest ih =>
      have ih2 := ih (future.Timing.poll m t now).1
      have hres : (future.Timing.poll m t now).2 = (m.step t.inner).2 := by rw [poll_eq]
      have hinner : ((future.Timing.poll m t now).1).inner = (m.step t.inner).1 := by
        rw [poll_eq]
      rw [hinner] at ih2
      simp only [future.drive, future.driveInner, hres, ih2.1, ih2.2, and_self]

/-- Claim C4, counterexample: after a first settling poll has set
`completed = some 1`, a second settling poll overwrites it with `some 2` —
the field is not left unchanged by later drive steps. -/
theorem c4_completed_overwritten :
    ((future.Timing.poll readyM
        (future.Timing.poll readyM (future.Timing.new () "f" 0) 1).1 2).1).completed = some 2 ∧
    ((future.Timing.poll readyM (future.Timing.new () "f" 0) 1).1).completed = some 1 ∧
    (some 2 : Option Nat) ≠ some 1 :=
  ⟨rfl, rfl, by decide⟩

/-- Claim C4 as amended: every drive step on which the inner future reports
readiness or failure sets `completed` to the current instant (in particular
the first settling step sets it); a step reporting not-ready leaves it
unchanged. A later settling step therefore overwrites it. -/
theorem c4_completed_update {σ α ε : Type} (m : FutureM σ α ε) (t : future.Timing σ)
    (now : Nat) :
    ((future.Timing.poll m t now).1).completed =
      match (m.step t.inner).2 with
      | Except.ok Async.notReady => t.completed
      | _ => some now := by
  rw [poll_eq]

/-- Claim C5: the lapse recorded (and reported) by finalization of the
future-wrapping variant is measured from `start` to the discard instant, and
the `completed` field does not enter into the finalization result at all. -/
theorem c5_lapse_ignores_completed {σ : Type} (t : future.Timing σ) (now : Nat)
    (c : Option Nat) (t2 : future.Timing σ) (out : List String)
    (h : future.Timing.finish t now = Except.ok (t2, out)) :
    t2.lapse = now - t.start ∧
    Except.map (fun p => (p.1.lapse, p.2)) (future.Timing.finish { t with completed := c } now) =
      Except.map (fun p => (p.1.lapse, p.2)) (future.Timing.finish t now) := by
  obtain ⟨i, st, co, la, na, qu, si⟩ := t
  constructor
  · cases qu
    · rcases si with _ | w
      · simp [future.Timing.finish, future.Timing.report, future.Timing.elapsed] at h
        simp [← h.1]
      · obtain ⟨buf, fl⟩ := w
        cases fl
        · simp [future.Timing.finish, future.Timing.report, future.Timing.elapsed,
            Writer.write] at h
          simp [← h.1]
        · simp [future.Timing.finish, future.Timing.report, Writer.write] at h
    · simp [future.Timing.finish, future.Timing.elapsed] at h
      simp [← h.1]
  · cases qu
    · rcases si with _ | w
      · rfl
      · obtain ⟨buf, fl⟩ := w
        cases fl <;> rfl
    · rfl

/-- Witness for C5 at a concrete wrapper state and drop instant. -/
theorem c5_lapse_ignores_completed_witness :
    future.Timing.finish
        ({ inner := (), start := 0, completed := none, lapse := 0, name := "x",
           quiet := true, sink := Sink.println } : future.Timing Unit) 3 =
      Except.ok ({ inner := (), start := 0, completed := none, lapse := 3, name := "x",
                   quiet := true, sink := Sink.println }, []) ∧
    (({ inner := (), start := 0, completed := none, lapse := 3, name := "x",
        quiet := true, sink := Sink.println } : future.Timing Unit).lapse = 3 - 0 ∧
     Except.map (fun p => (p.1.lapse, p.2))
        (future.Timing.finish
          ({ inner := (), start := 0, completed := some 7, lapse := 0, name := "x",
             quiet := true, sink := Sink.println } : future.Timing Unit) 3) =
      Except.map (fun p => (p.1.lapse, p.2))
        (future.Timing.finish
          ({ inner := (), start := 0, completed := none, lapse := 0, name := "x",
             quiet := true, sink := Sink.println } : future.Timing Unit) 3)) :=
  ⟨rfl,
   c5_lapse_ignores_completed
     ({ inner := (), start := 0, completed := none, lapse := 0, name := "x",
        quiet := true, sink := Sink.println } : future.Timing Unit)
     3 (some 7)
     ({ inner := (), start := 0, completed := none, lapse := 3, name := "x",
        quiet := true, sink := Sink.println })
     [] rfl⟩

/-- Claim C10 (frame): one poll of the wrapper changes at most the wrapped
inner state and `completed`; `start`, `name`, `quiet`, `sink` and `lapse`
are untouched. -/
theorem c10_poll_frame {σ α ε : Type} (m : FutureM σ α ε) (t : future.Timing σ)
    (now : Nat) :
    ((future.Timing.poll m t now).1).start = t.start ∧
    ((future.Timing.poll m t now).1).name = t.name ∧
    ((future.Timing.poll m t now).1).quiet = t.quiet ∧
    ((future.Timing.poll m t now).1).sink = t.sink ∧
    ((future.Timing.poll m t now).1).lapse = t.lapse := by
  rw [poll_eq]
  exact ⟨rfl, rfl, rfl, rfl, rfl⟩

end Easytiming
